import Mathlib

/-!
Shallow embedding of the AOE-Coach voice bot (src/bot.ts) and proofs about it.
Transcripts are modelled as lists of characters; the JavaScript string
operations used by the source (trim, split on whitespace, replace, toLowerCase,
regex matching against the literal trigger pattern) are embedded character by
character with ECMAScript semantics.
-/

/-- ECMAScript whitespace (the class matched by the regex `\s`, also the set
removed by `String.prototype.trim`): WhiteSpace plus LineTerminator. -/
def isJsWS (c : Char) : Bool :=
  c == ' ' || c == '\t' || c == '\n' || c == '\r' || c == '\x0b' || c == '\x0c' ||
  c == '\u00a0' || c == '\u1680' || ('\u2000' ≤ c && c ≤ '\u200a') ||
  c == '\u2028' || c == '\u2029' || c == '\u202f' || c == '\u205f' ||
  c == '\u3000' || c == '\ufeff'

/-- ECMAScript line terminators, which the regex metacharacter `.` does not
match (the source regex ends in `(.*)$` with no `s` flag). -/
def isJsLineTerm (c : Char) : Bool :=
  c == '\n' || c == '\r' || c == '\u2028' || c == '\u2029'

/-- JavaScript `String.prototype.trim`: remove leading and trailing whitespace. -/
def jsTrim (s : List Char) : List Char :=
  ((s.dropWhile isJsWS).reverse.dropWhile isJsWS).reverse

/-- JavaScript `String.prototype.split(/\s+/)`: split on maximal nonempty runs
of whitespace. An empty input yields one empty segment; leading or trailing
whitespace yields an empty first or last segment, exactly as in ECMAScript. -/
def splitWS : List Char → List (List Char)
  | [] => [[]]
  | c :: rest =>
    if isJsWS c then
      match rest with
      | [] => [[], []]
      | d :: _ =>
        if isJsWS d then splitWS rest
        else [] :: splitWS rest
    else
      match splitWS rest with
      | [] => [[c]]
      | seg :: segs => (c :: seg) :: segs

/-- `transcript.trim().split(/\s+/)` from `onUserSpeak` (bot.ts line 329). -/
def jsWords (t : List Char) : List (List Char) :=
  splitWS (jsTrim t)

/-- ASCII letter test: the character class `[a-z]` with the `i` flag, i.e. the
complement of what `w.replace(/[^a-z]/gi, '')` deletes. -/
def isAsciiAlpha (c : Char) : Bool :=
  ('a' ≤ c && c ≤ 'z') || ('A' ≤ c && c ≤ 'Z')

/-- JavaScript `toLowerCase` restricted to the ASCII letters that survive the
`replace(/[^a-z]/gi, '')` strip. -/
def jsToLower (c : Char) : Char :=
  if 'A' ≤ c && c ≤ 'Z' then Char.ofNat (c.toNat + 32) else c

/-- `w.replace(/[^a-z]/gi, '').toLowerCase()` from bot.ts line 330. -/
def normalizeWord (w : List Char) : List Char :=
  (w.filter isAsciiAlpha).map jsToLower

/-- The literal token `coach`. -/
def coachWord : List Char := ['c', 'o', 'a', 'c', 'h']

/-- The predicate passed to `words.findIndex` in bot.ts line 330. -/
def isCoachWord (w : List Char) : Bool :=
  normalizeWord w == coachWord

/-- `words.slice(i + 1).join(' ')`: join with single spaces. -/
def joinSpace (ws : List (List Char)) : List Char :=
  List.intercalate [' '] ws

/-- Case-insensitive literal match: strips `pat` from the front of `s`,
comparing characters after ASCII case folding (the `i` regex flag). -/
def stripCI (pat : List Char) (s : List Char) : Option (List Char) :=
  match pat, s with
  | [], rest => some rest
  | _ :: _, [] => none
  | p :: ps, c :: cs => if jsToLower c == jsToLower p then stripCI ps cs else none

/-- Match one-or-more characters of the class `sep` (a regex `[...]+`),
consuming the maximal run. The classes used below are disjoint from the
characters that follow them in the pattern, so maximal munch coincides with
the backtracking regex semantics. -/
def dropRun1 (sep : Char → Bool) (s : List Char) : Option (List Char) :=
  match s with
  | [] => none
  | c :: cs => if sep c then some (cs.dropWhile sep) else none

/-- The class `[, ]` between `hey` and `coach` in the fallback regex. -/
def isHeySep (c : Char) : Bool :=
  c == ',' || c == ' '

/-- The class `[!,. ]` after `coach` in the fallback regex. -/
def isCoachTerm (c : Char) : Bool :=
  c == '!' || c == ',' || c == '.' || c == ' '

/-- The fallback regex `/^\s*hey[, ]+coach[!,. ]+(.*)$/i` from bot.ts line 338:
returns the capture group when the transcript matches, `none` otherwise. The
trailing `(.*)$` (no `s`/`m` flags) requires the remainder to contain no line
terminator. -/
def heyCoachRemainder (t : List Char) : Option (List Char) :=
  match stripCI ['h', 'e', 'y'] (t.dropWhile isJsWS) with
  | none => none
  | some s2 =>
    match dropRun1 isHeySep s2 with
    | none => none
    | some s3 =>
      match stripCI coachWord s3 with
      | none => none
      | some s4 =>
        match dropRun1 isCoachTerm s4 with
        | none => none
        | some rest => if rest.any isJsLineTerm then none else some rest

/-- The fallback branch of `onUserSpeak` (bot.ts lines 337-343): the input is
set only when the regex matches and the trimmed capture is a truthy (nonempty)
string. -/
def fallbackCoachInput (t : List Char) : Option (List Char) :=
  match heyCoachRemainder t with
  | none => none
  | some rest => if jsTrim rest == [] then none else some (jsTrim rest)

/-- The trigger-extraction logic of `onUserSpeak` (bot.ts lines 328-345): the
value of `openaiInput` at the `if (openaiInput)` gate, with the gate applied
(JavaScript truthiness: `null` and the empty string both fail it). -/
def onUserSpeakQuery (t : List Char) : Option (List Char) :=
  let words := jsWords t
  let openaiInput : Option (List Char) :=
    match words.findIdx? isCoachWord with
    | some i =>
      if i < 3 then some (jsTrim (joinSpace (words.drop (i + 1))))
      else fallbackCoachInput t
    | none => fallbackCoachInput t
  match openaiInput with
  | none => none
  | some q => if q == [] then none else some q

/-- Abbreviation for string literals as character lists. -/
def lc (s : String) : List Char := s.toList

example : jsWords (lc " ok  coach  go ") = [lc "ok", lc "coach", lc "go"] := by decide
example : jsWords (lc "") = [[]] := by decide
example : isCoachWord (lc "Coach!") = true := by decide
example : isCoachWord (lc "coaches") = false := by decide
example : onUserSpeakQuery (lc "ok coach rush now") = some (lc "rush now") := by decide
example : onUserSpeakQuery (lc "coach") = none := by decide
example : onUserSpeakQuery (lc "Hey, Coach! rush them now") = some (lc "rush them now") := by decide
example : onUserSpeakQuery (lc "hey , , coach! go") = some (lc "go") := by decide
example : onUserSpeakQuery (lc "a b c coach go") = none := by decide
example : onUserSpeakQuery (lc "hey coach") = none := by decide

/-!
Sample quantization from `speakTextInVoiceChannel` (bot.ts lines 453-457).
Amplitudes are modelled as rationals; the two scale factors used by the source
are `0x8000 = 32768` for negative samples and `0x7FFF = 32767` otherwise.
-/

/-- JavaScript `Math.min` on numbers (NaN aside). -/
def jsMin (a b : ℚ) : ℚ := if a ≤ b then a else b

/-- JavaScript `Math.max` on numbers (NaN aside). -/
def jsMax (a b : ℚ) : ℚ := if a ≤ b then b else a

/-- `Math.max(-1, Math.min(1, audio.samples[i]))` (bot.ts line 455). -/
def clampSample (x : ℚ) : ℚ := jsMax (-1) (jsMin 1 x)

/-- `s = s < 0 ? s * 0x8000 : s * 0x7FFF` (bot.ts line 456). -/
def scaleSample (x : ℚ) : ℚ :=
  let s := clampSample x
  if s < 0 then s * 32768 else s * 32767

/-- The integer stored by `writeInt16LE`: numeric coercion truncates the scaled
value toward zero (T-division of numerator by denominator). -/
def quantizeSample (x : ℚ) : ℤ :=
  Int.tdiv (scaleSample x).num ((scaleSample x).den : ℤ)

/-- Little-endian byte pair written for one 16-bit signed sample. -/
def int16ToLEBytes (n : ℤ) : List ℕ :=
  let u := (n % 65536).toNat
  [u % 256, u / 256]

/-- The mono 16-bit little-endian PCM buffer built by the loop at bot.ts
lines 453-458: two bytes per input sample, in order. -/
def monoPcmBytes (samples : List ℚ) : List ℕ :=
  samples.flatMap (fun x => int16ToLEBytes (quantizeSample x))

/-- Truncating division by one is the identity. -/
theorem int_tdiv_one (v : ℤ) : Int.tdiv v 1 = v := by
  cases v with
  | ofNat m => simp [Int.tdiv]
  | negSucc m => simp [Int.tdiv, Int.negSucc_eq]

/-- Helper: evaluate `quantizeSample` once the scaled value is known. -/
theorem quantizeSample_eq_of_scale {x : ℚ} {v : ℤ} (h : scaleSample x = (v : ℚ)) :
    quantizeSample x = v := by
  rw [quantizeSample, h]
  simp [int_tdiv_one]

example : quantizeSample 1 = 32767 :=
  quantizeSample_eq_of_scale (by norm_num [scaleSample, clampSample, jsMin, jsMax])
example : quantizeSample (-1) = -32768 :=
  quantizeSample_eq_of_scale (by norm_num [scaleSample, clampSample, jsMin, jsMax])
example : quantizeSample 0 = 0 :=
  quantizeSample_eq_of_scale (by norm_num [scaleSample, clampSample, jsMin, jsMax])
example : quantizeSample 2 = 32767 :=
  quantizeSample_eq_of_scale (by norm_num [scaleSample, clampSample, jsMin, jsMax])
example : quantizeSample (-3/2) = -32768 :=
  quantizeSample_eq_of_scale (by norm_num [scaleSample, clampSample, jsMin, jsMax])

/-!
The OpenAI-compatible assistant client `sendTranscriptToOpenAI`
(bot.ts lines 358-398). The HTTP exchange is modelled by an outcome datatype:
the fetch either rejects (transport failure) or yields a response with a
status code and a body; the body either fails JSON parsing or parses to a
structure in which each level of `data.choices?.[0]?.message?.content` may be
absent.
-/

/-- The `message` object of a response choice; `content` may be absent. -/
structure RespMessage where
  content : Option (List Char)
deriving DecidableEq

/-- One element of the `choices` array; `message` may be absent. -/
structure RespChoice where
  message : Option RespMessage
deriving DecidableEq

/-- The parsed response body: either `response.json()` throws, or it yields an
object whose `choices` array may be absent. -/
inductive RespBody
  | invalidJson
  | json (choices : Option (List RespChoice))
deriving DecidableEq

/-- Outcome of the `fetch` call: rejection, or a response with status and body. -/
inductive FetchOutcome
  | throws
  | response (status : ℕ) (body : RespBody)
deriving DecidableEq

/-- `data.choices?.[0]?.message?.content`: optional chaining. -/
def extractReply (choices : Option (List RespChoice)) : Option (List Char) := do
  let cs ← choices
  let c0 ← cs.head?
  let m ← c0.message
  m.content

/-- `sendTranscriptToOpenAI` (bot.ts lines 358-398): `null` when the API key is
falsy, when the fetch rejects, when `response.ok` is false (status outside
200-299), when the body fails to parse, when the reply field is absent, and
when the reply is the empty string (`reply || null`); otherwise the first
choice's message content. The embedding is a total function: every failure
mode yields `none`, never an exception. -/
def sendTranscriptToOpenAI (apiKey : List Char) (out : FetchOutcome) : Option (List Char) :=
  if apiKey = [] then none
  else
    match out with
    | .throws => none
    | .response status body =>
      if status < 200 ∨ 300 ≤ status then none
      else
        match body with
        | .invalidJson => none
        | .json choices =>
          match extractReply choices with
          | none => none
          | some r => if r = [] then none else some r

example : sendTranscriptToOpenAI [] (.response 200 (.json (some [⟨some ⟨some (lc "hi")⟩⟩]))) = none := by decide
example : sendTranscriptToOpenAI (lc "k") (.response 200 (.json (some [⟨some ⟨some (lc "hi")⟩⟩]))) = some (lc "hi") := by decide
example : sendTranscriptToOpenAI (lc "k") (.response 500 (.json (some [⟨some ⟨some (lc "hi")⟩⟩]))) = none := by decide
example : sendTranscriptToOpenAI (lc "k") (.response 200 .invalidJson) = none := by decide
example : sendTranscriptToOpenAI (lc "k") (.response 200 (.json (some [⟨some ⟨some []⟩⟩]))) = none := by decide
example : sendTranscriptToOpenAI (lc "k") .throws = none := by decide

/-!
The session state registry (bot.ts lines 136-208). `channelVoiceStates` is a
JavaScript `Map` keyed by channel id; each channel holds a `Map` from user id
to per-user state. Maps are embedded as association lists with `Map.get`,
`Map.set` (update in place, insertion order preserved, append when absent) and
`Map.delete`. Transcription sessions are identified by opaque numeric handles;
closing a handle may fail, which the source catches and logs
(`console.warn`), so close attempts carry a success oracle whose only
observable effect is the warning count.
-/

/-- `Map.get`. -/
def aget {β : Type} (l : List (String × β)) (k : String) : Option β :=
  match l with
  | [] => none
  | (k2, v) :: t => if k2 = k then some v else aget t k

/-- `Map.set`: replace in place when the key is present, append otherwise. -/
def aset {β : Type} (l : List (String × β)) (k : String) (v : β) : List (String × β) :=
  match l with
  | [] => [(k, v)]
  | (k2, v2) :: t => if k2 = k then (k2, v) :: t else (k2, v2) :: aset t k v

/-- `Map.delete`. -/
def adel {β : Type} (l : List (String × β)) (k : String) : List (String × β) :=
  match l with
  | [] => []
  | (k2, v2) :: t => if k2 = k then adel t k else (k2, v2) :: adel t k

/-- `UserVoiceState` (bot.ts lines 137-142); the `voiceState` back-reference
is opaque to the registry and modelled by a number. -/
structure UserVoiceState where
  userId : String
  voiceState : ℕ
  deepgramStream : Option ℕ
deriving DecidableEq

/-- `ChannelVoiceState` (bot.ts lines 144-148). -/
structure ChannelVoiceState where
  channelId : String
  guildId : String
  users : List (String × UserVoiceState)
deriving DecidableEq

/-- `channelVoiceStates` (bot.ts line 150). -/
abbrev Registry := List (String × ChannelVoiceState)

/-- `getOrInitChannelState` (bot.ts lines 152-159). -/
def getOrInitChannelState (reg : Registry) (channelId guildId : String) :
    ChannelVoiceState × Registry :=
  match aget reg channelId with
  | some st => (st, reg)
  | none =>
    let st : ChannelVoiceState := { channelId := channelId, guildId := guildId, users := [] }
    (st, aset reg channelId st)

/-- `initUserInChannel` (bot.ts lines 161-171): create the user entry if
absent, otherwise update its voice-state descriptor in place. -/
def initUserInChannel (reg : Registry) (channelId guildId userId : String)
    (voiceState : ℕ) : Registry :=
  let p := getOrInitChannelState reg channelId guildId
  let channelState := p.1
  let users2 :=
    match aget channelState.users userId with
    | none =>
      aset channelState.users userId
        { userId := userId, voiceState := voiceState, deepgramStream := none }
    | some userState => aset channelState.users userId { userState with voiceState := voiceState }
  aset p.2 channelId { channelState with users := users2 }

/-- Result of `cleanupUserInChannel`: the new registry, the session handles
whose close was attempted, and the number of `console.warn` calls from close
attempts that threw. -/
structure CleanupResult where
  registry : Registry
  closedSessions : List ℕ
  warnCount : ℕ
deriving DecidableEq

/-- One guarded close attempt (`disconnect && disconnect(); close && close()`
inside `try`): the handle is acted on once; a throwing close is caught and
logged. -/
def closeStreamAttempt (closeOk : ℕ → Bool) (sid : ℕ) : List ℕ × ℕ :=
  ([sid], if closeOk sid then 0 else 1)

/-- `cleanupUserInChannel` (bot.ts lines 173-190): close the active session if
any (errors swallowed), delete the user, and delete the channel entry when its
user map becomes empty. -/
def cleanupUserInChannel (closeOk : ℕ → Bool) (reg : Registry)
    (channelId userId : String) : CleanupResult :=
  match aget reg channelId with
  | none => { registry := reg, closedSessions := [], warnCount := 0 }
  | some channelState =>
    let closed :=
      match aget channelState.users userId with
      | some userState =>
        match userState.deepgramStream with
        | some sid => closeStreamAttempt closeOk sid
        | none => ([], 0)
      | none => ([], 0)
    let users2 := adel channelState.users userId
    if users2 = [] then
      { registry := adel reg channelId, closedSessions := closed.1, warnCount := closed.2 }
    else
      { registry := aset reg channelId { channelState with users := users2 },
        closedSessions := closed.1, warnCount := closed.2 }

/-- The session handles reachable from the registry, in iteration order. -/
def registrySessions (reg : Registry) : List ℕ :=
  reg.flatMap (fun p => p.2.users.filterMap (fun q => q.2.deepgramStream))

/-- `closeAllDeepgramStreams` (bot.ts lines 193-208): close every reachable
session (each attempt wrapped in `try`, throwing closes logged), clear every
channel's user map, then clear the registry. Returns the emptied registry, the
attempted closes, and the warning count. -/
def closeAllDeepgramStreams (closeOk : ℕ → Bool) (reg : Registry) :
    Registry × List ℕ × ℕ :=
  let closed := registrySessions reg
  ([], closed, (closed.filter (fun sid => !(closeOk sid))).length)

/-!
Readiness gating in `transcribeUserAudio` (bot.ts lines 243-292): chunks from
the capture stream are forwarded to the transcription socket only once the
socket has signalled open; earlier chunks are dropped with a warning and no
buffer exists anywhere in the handler state.
-/

/-- The mutable closure state of `transcribeUserAudio` that the data handler
touches: the readiness flag, the sent counter, the chunks actually written to
the socket, and the number of warnings logged. There is no buffer field, as in
the source. -/
structure SttState where
  wsReady : Bool
  sentChunks : ℕ
  sentData : List ℕ
  warnCount : ℕ
deriving DecidableEq

/-- Events the handler reacts to: the socket `open` signal and an audio chunk
arriving on the capture stream. -/
inductive SttEvent
  | openSignal
  | audioData (chunk : ℕ)
deriving DecidableEq

/-- Initial state: `wsReady` starts true only when `ws.readyState === 1`
already held at subscription time (bot.ts line 267). -/
def sttInit (readyAtStart : Bool) : SttState :=
  { wsReady := readyAtStart, sentChunks := 0, sentData := [], warnCount := 0 }

/-- One handler step: `ws.on('open')` sets the flag (bot.ts lines 260-266);
`audioStream.on('data')` sends and counts when ready, otherwise warns and
drops (bot.ts lines 268-278). -/
def sttStep (st : SttState) : SttEvent → SttState
  | .openSignal => { st with wsReady := true }
  | .audioData c =>
    if st.wsReady then
      { st with sentData := st.sentData ++ [c], sentChunks := st.sentChunks + 1 }
    else
      { st with warnCount := st.warnCount + 1 }

/-- Process a sequence of events. -/
def sttRun (st : SttState) (evts : List SttEvent) : SttState :=
  evts.foldl sttStep st

/-- The chunks that arrive while the socket is ready, given the initial
readiness flag. -/
def readySent (ready : Bool) : List SttEvent → List ℕ
  | [] => []
  | SttEvent.openSignal :: es => readySent true es
  | SttEvent.audioData c :: es =>
    if ready then c :: readySent ready es else readySent ready es

example :
    sttRun (sttInit false) [.audioData 5, .openSignal, .audioData 6, .audioData 7] =
      { wsReady := true, sentChunks := 2, sentData := [6, 7], warnCount := 1 } := by decide

/-!
The synthesis and playback pipeline `speakTextInVoiceChannel`
(bot.ts lines 428-522). The channel and voice-connection lookups are modelled
by booleans; the try block contains five operations that can throw (indices
0-4: `tts.generate`, sample quantization, stereo duplication, the FFmpeg
resampler construction/pipe, the Opus encoder pipe), modelled by the index of
the first operation that throws, if any. `connection.setSpeaking` is the
per-channel speaking flag.
-/

/-- Observable outcome of one `speakTextInVoiceChannel` call. `flagAtExit` is
the speaking flag when the function returns; `flagAfterIdle` is the flag after
the `AudioPlayerStatus.Idle` handler has run (on the failure path no player
exists, so it equals `flagAtExit`). -/
structure SpeakResult where
  flagAtExit : Bool
  flagAfterIdle : Bool
  exnPropagated : Bool
  startedPlayback : Bool
deriving DecidableEq

/-- `speakTextInVoiceChannel` (bot.ts lines 428-522). Early returns leave the
flag untouched; otherwise the flag is set (line 440), a throw from any of the
five pipeline operations lands in the catch block which only logs (lines
518-520), and only the Idle handler of a successfully started player clears
the flag (lines 508-517). -/
def speakTextInVoiceChannel (hasChannel hasConnection : Bool)
    (failStep : Option (Fin 5)) (flag0 : Bool) : SpeakResult :=
  if hasChannel = false then
    { flagAtExit := flag0, flagAfterIdle := flag0, exnPropagated := false,
      startedPlayback := false }
  else if hasConnection = false then
    { flagAtExit := flag0, flagAfterIdle := flag0, exnPropagated := false,
      startedPlayback := false }
  else
    match failStep with
    | some _ =>
      { flagAtExit := true, flagAfterIdle := true, exnPropagated := false,
        startedPlayback := false }
    | none =>
      { flagAtExit := true, flagAfterIdle := false, exnPropagated := false,
        startedPlayback := true }

example : (speakTextInVoiceChannel true true (some 0) false).flagAtExit = true := by decide
example : (speakTextInVoiceChannel true true none false).flagAfterIdle = false := by decide

/-!
Process lifecycle (bot.ts lines 26-32 and 524-559). `cleanup` closes all
transcription sessions, disconnects every voice connection, and then calls
`process.exit(0)`; the signal handlers call only `cleanup`, while the
`uncaughtException` and `unhandledRejection` handlers call `cleanup` and then
`process.exit(1)`. A Node process terminates at the first `process.exit`
reached, so the handler traces are modelled as ordered action lists and the
exit code is the code of the first exit action.
-/

/-- Actions performed by the shutdown paths, in order. -/
inductive ProcAction
  | closeStreams
  | disconnectVoice (guildId : String)
  | exitCall (code : ℕ)
deriving DecidableEq

/-- The body of `cleanup` (bot.ts lines 525-543): close all Deepgram streams,
disconnect and destroy each voice connection, then `process.exit(0)`. -/
def cleanupTrace (conns : List String) : List ProcAction :=
  ProcAction.closeStreams :: (conns.map ProcAction.disconnectVoice ++ [ProcAction.exitCall 0])

/-- `process.on('SIGINT'/'SIGTERM', () => cleanup(...))` (bot.ts lines 545-546). -/
def signalShutdownTrace (conns : List String) : List ProcAction :=
  cleanupTrace conns

/-- `process.on('uncaughtException', ...)` (bot.ts lines 549-553): await
`cleanup`, then `process.exit(1)`. -/
def uncaughtExceptionTrace (conns : List String) : List ProcAction :=
  cleanupTrace conns ++ [ProcAction.exitCall 1]

/-- `process.on('unhandledRejection', ...)` (bot.ts lines 555-559). -/
def unhandledRejectionTrace (conns : List String) : List ProcAction :=
  cleanupTrace conns ++ [ProcAction.exitCall 1]

/-- The exit code the process actually terminates with: the first exit action
in the trace. -/
def exitCodeOf : List ProcAction → Option ℕ
  | [] => none
  | ProcAction.exitCall c :: _ => some c
  | _ :: rest => exitCodeOf rest

/-- The startup configuration check (bot.ts lines 27-32): exit code 1 when any
required environment variable is missing, otherwise startup continues. -/
def startupExitCode (missingEnvCount : ℕ) : Option ℕ :=
  if 0 < missingEnvCount then some 1 else none

example : exitCodeOf (signalShutdownTrace ["g1"]) = some 0 := by decide
example : exitCodeOf (uncaughtExceptionTrace ["g1"]) = some 0 := by decide
example : startupExitCode 2 = some 1 := by decide

/-!
Association-list lemmas used by the registry proofs.
-/

theorem aget_adel_self {β : Type} (l : List (String × β)) (k : String) :
    aget (adel l k) k = none := by
  induction l with
  | nil => rfl
  | cons p t ih =>
    by_cases h : p.1 = k
    · simpa [adel, h] using ih
    · simpa [adel, aget, h] using ih

theorem aget_aset_self {β : Type} (l : List (String × β)) (k : String) (v : β) :
    aget (aset l k v) k = some v := by
  induction l with
  | nil => simp [aset, aget]
  | cons p t ih =>
    by_cases h : p.1 = k
    · simp [aset, aget, h]
    · simpa [aset, aget, h] using ih

theorem aset_aset {β : Type} (l : List (String × β)) (k : String) (v1 v2 : β) :
    aset (aset l k v1) k v2 = aset l k v2 := by
  induction l with
  | nil => simp [aset]
  | cons p t ih =>
    by_cases h : p.1 = k
    · simp [aset, h]
    · simp [aset, h, ih]

theorem mem_aset {β : Type} {l : List (String × β)} {k : String} {v : β} {p : String × β}
    (hp : p ∈ aset l k v) : p ∈ l ∨ p = (k, v) := by
  induction l with
  | nil => simpa [aset] using hp
  | cons q t ih =>
    by_cases h : q.1 = k
    · rcases (by simpa [aset, h] using hp : p = (q.1, v) ∨ p ∈ t) with h2 | h2
      · right
        rw [h2, h]
      · left
        exact List.mem_cons_of_mem q h2
    · rcases (by simpa [aset, h] using hp : p = q ∨ p ∈ aset t k v) with h2 | h2
      · left
        simp [h2]
      · rcases ih h2 with h3 | h3
        · left
          exact List.mem_cons_of_mem q h3
        · right
          exact h3

theorem aset_ne_nil {β : Type} (l : List (String × β)) (k : String) (v : β) :
    aset l k v ≠ [] := by
  cases l with
  | nil => simp [aset]
  | cons p t =>
    by_cases h : p.1 = k <;> simp [aset, h]

theorem mem_adel {β : Type} {l : List (String × β)} {k : String} {p : String × β}
    (hp : p ∈ adel l k) : p ∈ l := by
  induction l with
  | nil => simp [adel] at hp
  | cons q t ih =>
    by_cases h : q.1 = k
    · exact List.mem_cons_of_mem q (ih (by simpa [adel, h] using hp))
    · rcases (by simpa [adel, h] using hp : p = q ∨ p ∈ adel t k) with h2 | h2
      · simp [h2]
      · exact List.mem_cons_of_mem q (ih h2)

/-- C1: if a registry channel holds a speaker whose state carries an open
transcription session, then `cleanupUserInChannel` on that channel and speaker
attempts to close exactly that session exactly once (whether or not the close
throws: failures only add a logged warning and are never propagated — the
function is total and its registry and close list do not depend on the close
oracle), removes the speaker from the channel's user map, removes the channel
entry exactly when the map becomes empty, and a repeated call closes nothing
further. -/
theorem removeSpeaker_closes_once (closeOk : ℕ → Bool) (reg : Registry)
    (channelId userId : String) (channelState : ChannelVoiceState)
    (userState : UserVoiceState) (sid : ℕ)
    (hch : aget reg channelId = some channelState)
    (hu : aget channelState.users userId = some userState)
    (hs : userState.deepgramStream = some sid) :
    (cleanupUserInChannel closeOk reg channelId userId).closedSessions = [sid] ∧
    (∀ cs2, aget (cleanupUserInChannel closeOk reg channelId userId).registry channelId =
        some cs2 → aget cs2.users userId = none) ∧
    (adel channelState.users userId = [] →
      aget (cleanupUserInChannel closeOk reg channelId userId).registry channelId = none) ∧
    (adel channelState.users userId ≠ [] →
      aget (cleanupUserInChannel closeOk reg channelId userId).registry channelId =
        some { channelState with users := adel channelState.users userId }) ∧
    (∀ closeOk2, (cleanupUserInChannel closeOk2
        (cleanupUserInChannel closeOk reg channelId userId).registry
        channelId userId).closedSessions = []) := by
  by_cases hempty : adel channelState.users userId = []
  · refine ⟨?_, ?_, ?_, ?_, ?_⟩
    · simp [cleanupUserInChannel, hch, hu, hs, hempty, closeStreamAttempt]
    · intro cs2 hcs2
      rw [(by simp [cleanupUserInChannel, hch, hu, hs, hempty, closeStreamAttempt] :
        (cleanupUserInChannel closeOk reg channelId userId).registry = adel reg channelId),
        aget_adel_self] at hcs2
      exact absurd hcs2 (by simp)
    · intro _
      simp [cleanupUserInChannel, hch, hu, hs, hempty, closeStreamAttempt, aget_adel_self]
    · intro hne
      exact absurd hempty hne
    · intro closeOk2
      have hreg : (cleanupUserInChannel closeOk reg channelId userId).registry =
          adel reg channelId := by
        simp [cleanupUserInChannel, hch, hu, hs, hempty, closeStreamAttempt]
      rw [hreg]
      simp [cleanupUserInChannel, aget_adel_self]
  · have hreg : (cleanupUserInChannel closeOk reg channelId userId).registry =
        aset reg channelId { channelState with users := adel channelState.users userId } := by
      simp [cleanupUserInChannel, hch, hu, hs, hempty, closeStreamAttempt]
    refine ⟨?_, ?_, ?_, ?_, ?_⟩
    · simp [cleanupUserInChannel, hch, hu, hs, hempty, closeStreamAttempt]
    · intro cs2 hcs2
      rw [hreg, aget_aset_self] at hcs2
      cases hcs2
      exact aget_adel_self channelState.users userId
    · intro h
      exact absurd h hempty
    · intro _
      rw [hreg, aget_aset_self]
    · intro closeOk2
      rw [hreg]
      simp only [cleanupUserInChannel, aget_aset_self, aget_adel_self]
      split <;> rfl

/-- Shared concrete registry used by the witnesses: one channel with two
speakers, the first holding an open session with handle 7. -/
def exUserA : UserVoiceState := { userId := "u1", voiceState := 0, deepgramStream := some 7 }

/-- Second example speaker, with no open session. -/
def exUserB : UserVoiceState := { userId := "u2", voiceState := 0, deepgramStream := none }

/-- Example channel holding both speakers. -/
def exChannel : ChannelVoiceState :=
  { channelId := "c1", guildId := "g1", users := [("u1", exUserA), ("u2", exUserB)] }

/-- Example registry. -/
def exReg : Registry := [("c1", exChannel)]

/-- Witness for C1 at a concrete registry: removing speaker u1 attempts to
close exactly session 7. -/
theorem removeSpeaker_closes_once_witness :
    (cleanupUserInChannel (fun _ => true) exReg "c1" "u1").closedSessions = [7] :=
  (removeSpeaker_closes_once (fun _ => true) exReg "c1" "u1" exChannel exUserA 7
    (by decide) (by decide) (by decide)).1

/-- C8: `closeAllDeepgramStreams` attempts to close every session reachable
from the registry (the attempted list is exactly the reachable sessions, each
throwing close only adding a logged warning — the function is total, so no
error escapes) and leaves the registry empty; running it again on the result
closes nothing, warns nothing, and leaves the registry empty again. -/
theorem closeAll_idempotent (closeOk : ℕ → Bool) (reg : Registry) :
    (closeAllDeepgramStreams closeOk reg).1 = [] ∧
    (closeAllDeepgramStreams closeOk reg).2.1 = registrySessions reg ∧
    (∀ sid, sid ∈ (closeAllDeepgramStreams closeOk reg).2.1 ↔
      ∃ p ∈ reg, ∃ q ∈ p.2.users, q.2.deepgramStream = some sid) ∧
    closeAllDeepgramStreams closeOk ((closeAllDeepgramStreams closeOk reg).1) =
      ([], [], 0) := by
  refine ⟨rfl, rfl, ?_, rfl⟩
  intro sid
  simp [closeAllDeepgramStreams, registrySessions, List.mem_flatMap, List.mem_filterMap]

/-- The implicit registry invariant: no channel entry has an empty user map. -/
def registryInv (reg : Registry) : Prop :=
  ∀ p ∈ reg, p.2.users ≠ []

/-- Helper: setting a channel whose user map is nonempty preserves the
invariant. -/
theorem registryInv_aset {reg : Registry} {k : String} {cs : ChannelVoiceState}
    (hinv : registryInv reg) (hne : cs.users ≠ []) : registryInv (aset reg k cs) := by
  intro p hp
  rcases mem_aset hp with h | h
  · exact hinv p h
  · rw [h]
    exact hne

/-- Helper: deleting a channel preserves the invariant. -/
theorem registryInv_adel {reg : Registry} {k : String} (hinv : registryInv reg) :
    registryInv (adel reg k) :=
  fun p hp => hinv p (mem_adel hp)

/-- Helper: `initUserInChannel` always produces a single `aset` of the touched
channel with a nonempty user map (the transient empty channel that
`getOrInitChannelState` may insert is immediately overwritten). -/
theorem initUserInChannel_eq_aset (reg : Registry) (channelId guildId userId : String)
    (vs : ℕ) :
    ∃ cs : ChannelVoiceState, initUserInChannel reg channelId guildId userId vs =
      aset reg channelId cs ∧ cs.users ≠ [] := by
  unfold initUserInChannel getOrInitChannelState
  cases hch : aget reg channelId with
  | some channelState =>
    dsimp only
    cases hu : aget channelState.users userId with
    | some userState => exact ⟨_, rfl, aset_ne_nil _ _ _⟩
    | none => exact ⟨_, rfl, aset_ne_nil _ _ _⟩
  | none =>
    dsimp only [aget]
    simp only [aset_aset]
    exact ⟨_, rfl, aset_ne_nil _ _ _⟩

/-- C10: assuming every channel entry in the registry has at least one user,
the invariant is preserved by `initUserInChannel` (which always re-stores the
touched channel with a user just set), by `cleanupUserInChannel` (which
deletes the channel entry exactly when its user map becomes empty), and by
`closeAllDeepgramStreams` (which clears the registry, trivially satisfying
it). -/
theorem registry_never_holds_empty_channel :
    (∀ reg channelId guildId userId vs, registryInv reg →
      registryInv (initUserInChannel reg channelId guildId userId vs)) ∧
    (∀ closeOk reg channelId userId, registryInv reg →
      registryInv (cleanupUserInChannel closeOk reg channelId userId).registry) ∧
    (∀ closeOk reg, registryInv (closeAllDeepgramStreams closeOk reg).1) := by
  refine ⟨?_, ?_, ?_⟩
  · intro reg channelId guildId userId vs hinv
    obtain ⟨cs, heq, hne⟩ := initUserInChannel_eq_aset reg channelId guildId userId vs
    rw [heq]
    exact registryInv_aset hinv hne
  · intro closeOk reg channelId userId hinv
    unfold cleanupUserInChannel
    cases hch : aget reg channelId with
    | none => exact hinv
    | some channelState =>
      by_cases hempty : adel channelState.users userId = []
      · simpa [hempty] using registryInv_adel hinv
      · simpa [hempty] using registryInv_aset hinv hempty
  · intro closeOk reg p hp
    simp [closeAllDeepgramStreams] at hp

/-- Witness for C10 at concrete inputs: starting from the empty registry
(which trivially satisfies the invariant), adding a user yields a registry
still satisfying the invariant. -/
theorem registry_never_holds_empty_channel_witness :
    registryInv (initUserInChannel [] "c1" "g1" "u1" 0) :=
  registry_never_holds_empty_channel.1 [] "c1" "g1" "u1" 0 (fun p hp => absurd hp (by simp))

/-- Helper for C9: the data actually written to the socket over any event
sequence is the prior data followed by exactly the chunks that arrive while
the readiness flag holds. -/
theorem sttRun_sentData (evts : List SttEvent) :
    ∀ st : SttState, (sttRun st evts).sentData = st.sentData ++ readySent st.wsReady evts := by
  induction evts with
  | nil => intro st; simp [sttRun, readySent]
  | cons e es ih =>
    intro st
    cases e with
    | openSignal =>
      simp only [sttRun, List.foldl_cons, sttStep, readySent]
      have h := ih ⟨true, st.sentChunks, st.sentData, st.warnCount⟩
      simp only [sttRun] at h
      rw [h]
    | audioData c =>
      simp only [sttRun, List.foldl_cons, sttStep, readySent]
      by_cases hready : st.wsReady = true
      · simp only [hready, if_true]
        have h := ih ⟨true, st.sentChunks + 1, st.sentData ++ [c], st.warnCount⟩
        simp only [sttRun] at h
        rw [h]
        simp
      · rw [Bool.not_eq_true] at hready
        simp only [hready, Bool.false_eq_true, if_false]
        have h := ih ⟨false, st.sentChunks, st.sentData, st.warnCount + 1⟩
        simp only [sttRun] at h
        rw [h]

/-- C9: a chunk arriving while the socket is not ready is dropped — the
handler state changes only by one logged warning, so the chunk is neither sent
nor buffered anywhere — while a chunk arriving when ready is appended to the
socket writes and counted; consequently, over any event sequence the data
written to the socket is exactly the chunks that arrived after readiness. -/
theorem stt_unready_drops :
    (∀ st c, st.wsReady = false →
      sttStep st (.audioData c) = { st with warnCount := st.warnCount + 1 }) ∧
    (∀ st c, st.wsReady = true →
      sttStep st (.audioData c) =
        { st with sentData := st.sentData ++ [c], sentChunks := st.sentChunks + 1 }) ∧
    (∀ st evts, (sttRun st evts).sentData = st.sentData ++ readySent st.wsReady evts) := by
  refine ⟨?_, ?_, ?_⟩
  · intro st c h
    simp [sttStep, h]
  · intro st c h
    simp [sttStep, h]
  · intro st evts
    exact sttRun_sentData evts st

/-- Witness for C9 at a concrete state: one chunk arriving before readiness
leaves the sent data empty and records one warning. -/
theorem stt_unready_drops_witness :
    sttStep (sttInit false) (.audioData 5) =
      { wsReady := false, sentChunks := 0, sentData := [], warnCount := 1 } :=
  stt_unready_drops.1 (sttInit false) 5 rfl

/-- C2 counterexample: with a present channel and an active connection, a
failure in the first pipeline operation (`tts.generate`) leaves the speaking
flag set at function exit — the claim that the flag set in step 1 is still
cleared on this exit path is false. -/
theorem speak_claim_counterexample :
    ¬ ((speakTextInVoiceChannel true true (some 0) false).flagAtExit = false) := by
  decide

/-- C2 amended: on every path no exception propagates past the function
boundary, and a failure in any of the five pipeline operations (steps 2-5)
aborts the operation; but on that failure path the speaking flag set in step 1
is NOT cleared — it remains set at exit — and the flag is cleared only on the
success path once playback reaches idle. -/
theorem speak_flag_behaviour (hasChannel hasConnection : Bool)
    (failStep : Option (Fin 5)) (flag0 : Bool) :
    (speakTextInVoiceChannel hasChannel hasConnection failStep flag0).exnPropagated = false ∧
    (hasChannel = true → hasConnection = true → ∀ k, failStep = some k →
      (speakTextInVoiceChannel hasChannel hasConnection failStep flag0).flagAtExit = true ∧
      (speakTextInVoiceChannel hasChannel hasConnection failStep flag0).startedPlayback =
        false) ∧
    (hasChannel = true → hasConnection = true → failStep = none →
      (speakTextInVoiceChannel hasChannel hasConnection failStep flag0).flagAfterIdle =
        false) := by
  refine ⟨?_, ?_, ?_⟩
  · cases hasChannel <;> cases hasConnection <;> cases failStep <;>
      simp [speakTextInVoiceChannel]
  · intro h1 h2 k hk
    subst h1; subst h2; subst hk
    simp [speakTextInVoiceChannel]
  · intro h1 h2 hk
    subst h1; subst h2; subst hk
    simp [speakTextInVoiceChannel]

/-- Witness for C2 (amended) at concrete inputs: a failure in the FFmpeg stage
leaves the flag set and playback unstarted. -/
theorem speak_flag_behaviour_witness :
    (speakTextInVoiceChannel true true (some 3) false).flagAtExit = true :=
  ((speak_flag_behaviour true true (some 3) false).2.1 rfl rfl 3 rfl).1

/-- C3: the startup check and the signal path behave as claimed (exit code 1
with configuration missing, 0 on SIGINT/SIGTERM shutdown), and the crash
handlers do run the full cleanup sequence first; but the crash path then
terminates with exit code 0, not 1 — `cleanup` ends in `process.exit(0)`, so
the `process.exit(1)` that follows `await cleanup(...)` in both crash handlers
is unreachable. -/
theorem crash_path_exits_zero :
    uncaughtExceptionTrace ["g1"] =
      [ProcAction.closeStreams, ProcAction.disconnectVoice "g1",
        ProcAction.exitCall 0, ProcAction.exitCall 1] ∧
    exitCodeOf (uncaughtExceptionTrace ["g1"]) = some 0 ∧
    exitCodeOf (unhandledRejectionTrace ["g1"]) = some 0 ∧
    exitCodeOf (signalShutdownTrace ["g1"]) = some 0 ∧
    startupExitCode 1 = some 1 := by
  refine ⟨rfl, rfl, rfl, rfl, rfl⟩

/-- C4: when `coach` (after stripping non-alphabetic characters and case
folding) is found among the transcript's whitespace-delimited tokens at the
first index i with i < 3, the produced assistant query is the tokens after
index i joined with single spaces and trimmed, and no query is produced when
that remainder is empty (for instance when the transcript is `coach` alone). -/
theorem coach_token_rule (t : List Char) (i : ℕ)
    (hfind : (jsWords t).findIdx? isCoachWord = some i) (hi : i < 3) :
    onUserSpeakQuery t =
      (if jsTrim (joinSpace ((jsWords t).drop (i + 1))) = [] then none
       else some (jsTrim (joinSpace ((jsWords t).drop (i + 1))))) := by
  simp [onUserSpeakQuery, hfind, hi]

/-- Witness for C4: the token rule at a concrete transcript with `coach` at
index 1 produces the joined trimmed remainder. -/
theorem coach_token_rule_witness :
    onUserSpeakQuery (lc "ok coach rush now") = some (lc "rush now") := by
  have h := coach_token_rule (lc "ok coach rush now") 1 (by decide) (by decide)
  rw [h]
  decide

/-- Decidable form of the C5 premise: the first `coach` token, if any, sits at
index 3 or later. -/
def coachNotInFirstThree (t : List Char) : Bool :=
  match (jsWords t).findIdx? isCoachWord with
  | some i => decide (3 ≤ i)
  | none => true

/-- C5: when `coach` does not occur (punctuation-stripped, case-folded) in the
first three tokens, the parser falls back to the regex
`/^\s*hey[, ]+coach[!,. ]+(.*)$/i`: on a match the trimmed remainder, if
nonempty, becomes the query, and otherwise — no match, or empty trimmed
remainder — no query is produced at all. -/
theorem coach_fallback_rule (t : List Char) (h : coachNotInFirstThree t = true) :
    onUserSpeakQuery t =
      (match heyCoachRemainder t with
       | some rest => if jsTrim rest = [] then none else some (jsTrim rest)
       | none => none) := by
  have hgate : (match fallbackCoachInput t with
      | none => none
      | some q => if q == [] then none else some q) =
      (match heyCoachRemainder t with
       | some rest => if jsTrim rest = [] then none else some (jsTrim rest)
       | none => none) := by
    unfold fallbackCoachInput
    cases heyCoachRemainder t with
    | none => rfl
    | some rest =>
      by_cases hr : jsTrim rest = []
      · simp [hr]
      · simp [hr]
  unfold coachNotInFirstThree at h
  cases hfind : (jsWords t).findIdx? isCoachWord with
  | none =>
    simp only [onUserSpeakQuery, hfind]
    exact hgate
  | some i =>
    rw [hfind] at h
    have hge : 3 ≤ i := by simpa using h
    have hlt : ¬ i < 3 := by omega
    simp only [onUserSpeakQuery, hfind]
    rw [if_neg hlt]
    exact hgate

/-- Witness for C5: a transcript whose first `coach` token sits at index 3, so
the token rule misses, yet the fallback regex matches and yields the query. -/
theorem coach_fallback_rule_witness :
    onUserSpeakQuery (lc "hey , , coach! go") = some (lc "go") := by
  have h := coach_fallback_rule (lc "hey , , coach! go") (by decide)
  rw [h]
  decide

/-- C6: sample quantization clamps each amplitude to [-1, 1] and scales
negative clamped values by 32768 and non-negative ones by 32767; amplitude 1
maps to 32767, -1 maps to -32768, 0 maps to 0, and the emitted buffer is
16-bit signed little-endian mono: two bytes per sample, low byte first, two's
complement. -/
theorem quantization_rule :
    (∀ x : ℚ, -1 ≤ clampSample x ∧ clampSample x ≤ 1 ∧
      scaleSample x =
        (if clampSample x < 0 then clampSample x * 32768 else clampSample x * 32767)) ∧
    quantizeSample 1 = 32767 ∧ quantizeSample (-1) = -32768 ∧ quantizeSample 0 = 0 ∧
    monoPcmBytes [1, -1, 0] = [255, 127, 0, 128, 0, 0] := by
  have h1 : quantizeSample 1 = 32767 :=
    quantizeSample_eq_of_scale (by norm_num [scaleSample, clampSample, jsMin, jsMax])
  have h2 : quantizeSample (-1) = -32768 :=
    quantizeSample_eq_of_scale (by norm_num [scaleSample, clampSample, jsMin, jsMax])
  have h3 : quantizeSample 0 = 0 :=
    quantizeSample_eq_of_scale (by norm_num [scaleSample, clampSample, jsMin, jsMax])
  refine ⟨?_, h1, h2, h3, ?_⟩
  · intro x
    refine ⟨?_, ?_, rfl⟩
    · unfold clampSample jsMax jsMin
      split_ifs <;> linarith
    · unfold clampSample jsMax jsMin
      split_ifs <;> linarith
  · simp only [monoPcmBytes, int16ToLEBytes, h1, h2, h3, List.flatMap_cons, List.flatMap_nil]
    decide

/-- C7: the assistant client is a total function — it yields `none` (never an
exception) for an empty or missing API key, a transport failure, a non-2xx
response status, an unparseable response body, or a body lacking
`choices[0].message.content`, and it yields the first choice's message content
on a successful response carrying a nonempty content string. -/
theorem assistant_client_total :
    (∀ out, sendTranscriptToOpenAI [] out = none) ∧
    (∀ apiKey, sendTranscriptToOpenAI apiKey .throws = none) ∧
    (∀ apiKey s b, s < 200 ∨ 300 ≤ s →
      sendTranscriptToOpenAI apiKey (.response s b) = none) ∧
    (∀ apiKey s, sendTranscriptToOpenAI apiKey (.response s .invalidJson) = none) ∧
    (∀ apiKey s ch, extractReply ch = none →
      sendTranscriptToOpenAI apiKey (.response s (.json ch)) = none) ∧
    (∀ apiKey s ch r, apiKey ≠ [] → 200 ≤ s → s < 300 → extractReply ch = some r →
      r ≠ [] → sendTranscriptToOpenAI apiKey (.response s (.json ch)) = some r) := by
  refine ⟨?_, ?_, ?_, ?_, ?_, ?_⟩
  · intro out
    simp [sendTranscriptToOpenAI]
  · intro apiKey
    by_cases hk : apiKey = [] <;> simp [sendTranscriptToOpenAI, hk]
  · intro apiKey s b hs
    by_cases hk : apiKey = [] <;> simp [sendTranscriptToOpenAI, hk, hs]
  · intro apiKey s
    by_cases hk : apiKey = [] <;> by_cases hs : s < 200 ∨ 300 ≤ s <;>
      simp [sendTranscriptToOpenAI, hk, hs]
  · intro apiKey s ch hch
    by_cases hk : apiKey = [] <;> by_cases hs : s < 200 ∨ 300 ≤ s <;>
      simp [sendTranscriptToOpenAI, hk, hs, hch]
  · intro apiKey s ch r hk h200 h300 hch hr
    have hs : ¬ (s < 200 ∨ 300 ≤ s) := by omega
    simp [sendTranscriptToOpenAI, hk, hs, hch, hr]

/-- Witness for C7 at concrete inputs: a 200 response whose first choice
carries nonempty content is returned verbatim. -/
theorem assistant_client_total_witness :
    sendTranscriptToOpenAI (lc "k")
      (.response 200 (.json (some [⟨some ⟨some (lc "hi")⟩⟩]))) = some (lc "hi") :=
  assistant_client_total.2.2.2.2.2 (lc "k") 200 (some [⟨some ⟨some (lc "hi")⟩⟩]) (lc "hi")
    (by decide) (by decide) (by decide) (by decide) (by decide)
